import Mathlib

/-!
Verification of the admin cache/coherency layer of the hamsoya admin frontend.

The development shallowly embeds the client-side cache subsystem:
query keys and the key registry (`ADMIN_CACHE_KEYS` in
`src/lib/admin-cache-manager.ts`), the query cache store operations the code
invokes (`invalidateQueries`, `removeQueries`, `getQueryData`, `setQueryData`),
the mutation invalidation policy (`AdminCacheManager.invalidateAfterMutation`),
the realtime event handler (`useAdminRealtime`, `eventSource.onmessage`),
the reconnect backoff machine (`eventSource.onerror` / `onopen`),
the optimistic-update coordinator (`useOptimisticUpdate.updateOptimistically`),
the admin mutation hooks, the API client's 401 handling (`ApiClient.request`),
and the module-level cache-manager singleton (`getAdminCacheManager`).
-/

namespace Hamsoya

/-! ## JSON-like values and query keys

Query keys in the source are arrays of strings, numbers, and plain parameter
objects (`ADMIN_CACHE_KEYS`, e.g. `['admin', 'orders', 'list', params]`).
A parameter object is modelled as its insertion-ordered list of fields. -/

inductive JVal where
  | jstr (s : String)
  | jnum (n : Int)
  | jbool (b : Bool)
  deriving DecidableEq

/-- A JS object as an insertion-ordered association list of fields. -/
abbrev ParamsObj := List (String × JVal)

inductive KeyPart where
  | str (s : String)
  | num (n : Int)
  | obj (o : ParamsObj)
  deriving DecidableEq

abbrev QueryKey := List KeyPart

/-- Shorthand for a string key part. -/
def kp (s : String) : KeyPart := .str s

/-- Whether the key `k` starts with the prefix list `p` (the partial matching
used by `queryClient.invalidateQueries` / `removeQueries`). -/
def keyStartsWith : QueryKey → QueryKey → Bool
  | [], _ => true
  | _ :: _, [] => false
  | p :: ps, q :: qs => if p = q then keyStartsWith ps qs else false

/-! ## Canonical key hashing

The query cache identifies two structurally equal keys with each other via a
canonical hash in which object fields are serialized in sorted key order.
Modelled from the spec: §3 requires `paramsDigest` to be "a canonical,
order-independent serialization of query parameters"; the hashing itself lives
in the external query-cache library, not in this repository.  Field names are
ordered by code-point-wise lexicographic comparison. -/

/-- Strict code-point comparison of two characters. -/
def chLtb (c d : Char) : Bool := decide (c.toNat < d.toNat)

/-- Lexicographic strict comparison of two character lists. -/
def chListLtb : List Char → List Char → Bool
  | [], [] => false
  | [], _ :: _ => true
  | _ :: _, [] => false
  | c :: cs, d :: ds =>
    if chLtb c d then true
    else if chLtb d c then false
    else chListLtb cs ds

/-- Lexicographic strict comparison of strings. -/
def strLtb (a b : String) : Bool := chListLtb a.data b.data

/-- The sorting relation on object fields: `a` may come before `b`. -/
def fieldLe (a b : String × JVal) : Prop := strLtb b.1 a.1 = false

instance : DecidableRel fieldLe :=
  fun a b => inferInstanceAs (Decidable (strLtb b.1 a.1 = false))

/-- Object fields in canonical (sorted-by-name) order. -/
def sortParams (o : ParamsObj) : ParamsObj := List.insertionSort fieldLe o

/-- Strict version of the field ordering, used to squeeze sorted lists with
distinct names into equality. -/
def fieldLt (a b : String × JVal) : Prop := fieldLe a b ∧ a.1 ≠ b.1

/-- Canonicalize one key part: parameter objects get their fields sorted. -/
def canonPart : KeyPart → KeyPart
  | .obj o => .obj (sortParams o)
  | .str s => .str s
  | .num n => .num n

/-- Canonical form of a query key; two keys with the same canonical form
address the same cache entry. -/
def hashKey (k : QueryKey) : QueryKey := k.map canonPart

/-! ## The query cache store

The store is modelled as a map from canonical query keys to entries carrying a
staleness flag and the cached payload.  This is the view of the external query
cache that the repository's code manipulates through `invalidateQueries`,
`removeQueries`, `getQueryData` and `setQueryData`. -/

structure CacheState (α : Type) where
  stale : Bool
  data : α
  deriving DecidableEq

abbrev Store (α : Type) := QueryKey → Option (CacheState α)

/-- Mark an entry stale (refetch forced on next access, data kept). -/
def markStale (e : CacheState α) : CacheState α := { e with stale := true }

/-- `queryClient.invalidateQueries { queryKey }`: mark every entry whose key
starts with the given prefix as stale, keeping its data. -/
def invalidateQueries (p : QueryKey) (s : Store α) : Store α :=
  fun k => if keyStartsWith p k then (s k).map markStale else s k

/-- `queryClient.removeQueries { queryKey }`: evict every entry whose key
starts with the given prefix. -/
def removeQueries (p : QueryKey) (s : Store α) : Store α :=
  fun k => if keyStartsWith p k then none else s k

/-- `queryClient.getQueryData(queryKey)`: the cached payload under the key's
canonical form, if present. -/
def getQueryData (k : QueryKey) (s : Store α) : Option α :=
  (s (hashKey k)).map (fun e => e.data)

/-- `queryClient.setQueryData(queryKey, value)`: store a fresh value under the
key's canonical form; setting `undefined` (here `none`) is a no-op. -/
def setQueryData (k : QueryKey) (v : Option α) (s : Store α) : Store α :=
  match v with
  | none => s
  | some d => fun q => if q = hashKey k then some { stale := false, data := d } else s q

/-- `queryClient.setQueryData(queryKey, updateFn)` with a functional updater:
the new value is computed from the currently cached one. -/
def setQueryDataFn (k : QueryKey) (f : Option α → α) (s : Store α) : Store α :=
  setQueryData k (some (f (getQueryData k s))) s

/-! ## AdminCacheManager invalidation policy
(`src/lib/admin-cache-manager.ts`, `invalidateAfterMutation`) -/

inductive Resource where
  | orders | products | customers | categories
  deriving DecidableEq

def Resource.rname : Resource → String
  | .orders => "orders"
  | .products => "products"
  | .customers => "customers"
  | .categories => "categories"

inductive MutAction where
  | create | update | delete
  deriving DecidableEq

/-- `AdminCacheManager.invalidateDashboard`. -/
def invalidateDashboard (s : Store α) : Store α :=
  invalidateQueries [kp "admin", kp "dashboard"] s

/-- `AdminCacheManager.invalidateAfterMutation(resource, action, id?)`,
embedded clause by clause from the `switch (action)` in the source. -/
def invalidateAfterMutation (r : Resource) (a : MutAction) (id : Option String)
    (s : Store α) : Store α :=
  match a with
  | .create =>
      invalidateDashboard
        (invalidateQueries [kp "admin", kp r.rname, kp "stats"]
          (invalidateQueries [kp "admin", kp r.rname, kp "list"] s))
  | .update =>
      let s1 := match id with
        | some i => invalidateQueries [kp "admin", kp r.rname, kp "detail", kp i] s
        | none => s
      invalidateDashboard (invalidateQueries [kp "admin", kp r.rname, kp "list"] s1)
  | .delete =>
      let s1 := match id with
        | some i => removeQueries [kp "admin", kp r.rname, kp "detail", kp i] s
        | none => s
      invalidateDashboard
        (invalidateQueries [kp "admin", kp r.rname, kp "stats"]
          (invalidateQueries [kp "admin", kp r.rname, kp "list"] s1))

/-- The invalidation table of spec §4.5, written directly from the spec's
rows, for refinement comparison with `invalidateAfterMutation`:
create → invalidate `{resource}.list`, `{resource}.stats`, `dashboard.*`;
update → invalidate `{resource}.detail.{id}`, `{resource}.list`, `dashboard.*`;
delete → evict `{resource}.detail.{id}`, invalidate `{resource}.list`,
`{resource}.stats`, `dashboard.*`. -/
def specTableEffect (r : Resource) (a : MutAction) (id : String)
    (s : Store α) : Store α :=
  match a with
  | .create =>
      invalidateQueries [kp "admin", kp "dashboard"]
        (invalidateQueries [kp "admin", kp r.rname, kp "stats"]
          (invalidateQueries [kp "admin", kp r.rname, kp "list"] s))
  | .update =>
      invalidateQueries [kp "admin", kp "dashboard"]
        (invalidateQueries [kp "admin", kp r.rname, kp "list"]
          (invalidateQueries [kp "admin", kp r.rname, kp "detail", kp id] s))
  | .delete =>
      invalidateQueries [kp "admin", kp "dashboard"]
        (invalidateQueries [kp "admin", kp r.rname, kp "stats"]
          (invalidateQueries [kp "admin", kp r.rname, kp "list"]
            (removeQueries [kp "admin", kp r.rname, kp "detail", kp id] s)))

/-- The keys a `(resource, action, id)` mutation invalidation may touch,
straight from the invalidation table. -/
def touchedByMutation (r : Resource) (a : MutAction) (id : String)
    (k : QueryKey) : Bool :=
  match a with
  | .create =>
      keyStartsWith [kp "admin", kp r.rname, kp "list"] k ||
      keyStartsWith [kp "admin", kp r.rname, kp "stats"] k ||
      keyStartsWith [kp "admin", kp "dashboard"] k
  | .update =>
      keyStartsWith [kp "admin", kp r.rname, kp "detail", kp id] k ||
      keyStartsWith [kp "admin", kp r.rname, kp "list"] k ||
      keyStartsWith [kp "admin", kp "dashboard"] k
  | .delete =>
      keyStartsWith [kp "admin", kp r.rname, kp "detail", kp id] k ||
      keyStartsWith [kp "admin", kp r.rname, kp "list"] k ||
      keyStartsWith [kp "admin", kp r.rname, kp "stats"] k ||
      keyStartsWith [kp "admin", kp "dashboard"] k

/-! ## Realtime event handler
(`src/hooks/use-admin-realtime.ts`, `eventSource.onmessage`) -/

inductive RTEventType where
  | connected | stats_update | order_update | product_update | customer_update | unknown
  deriving DecidableEq

/-- The cache effect of one incoming realtime event, embedded case by case
from the `switch (data.type)` in the source (toasts and logging omitted). -/
def handleRealtimeEvent (t : RTEventType) (s : Store α) : Store α :=
  match t with
  | .connected => s
  | .stats_update => invalidateQueries [kp "admin", kp "dashboard", kp "stats"] s
  | .order_update =>
      invalidateQueries [kp "admin", kp "orders"]
        (invalidateQueries [kp "admin", kp "dashboard", kp "recent-orders"] s)
  | .product_update =>
      invalidateQueries [kp "admin", kp "products"]
        (invalidateQueries [kp "admin", kp "dashboard", kp "top-products"] s)
  | .customer_update =>
      invalidateQueries [kp "admin", kp "customers"]
        (invalidateQueries [kp "admin", kp "dashboard", kp "recent-customers"] s)
  | .unknown => s

/-- The realtime event a resource's update-class invalidation is claimed to
correspond to (orders/products/customers; categories has no event). -/
def eventFor : Resource → Option RTEventType
  | .orders => some .order_update
  | .products => some .product_update
  | .customers => some .customer_update
  | .categories => none

/-- The dashboard sub-key the event handler invalidates for each event. -/
def eventDashKey : RTEventType → QueryKey
  | .stats_update => [kp "admin", kp "dashboard", kp "stats"]
  | .order_update => [kp "admin", kp "dashboard", kp "recent-orders"]
  | .product_update => [kp "admin", kp "dashboard", kp "top-products"]
  | .customer_update => [kp "admin", kp "dashboard", kp "recent-customers"]
  | .connected => []
  | .unknown => []

/-! ## Optimistic update coordinator
(`src/hooks/use-admin-realtime.ts`, `useOptimisticUpdate.updateOptimistically`,
and `AdminCacheManager.updateOptimistically`) -/

/-- The synchronous opening of `updateOptimistically`: capture
`previousData = getQueryData(queryKey)` and apply the speculative update
`setQueryData(queryKey, updateFn)`.  Returns the captured value and the
patched store. -/
def beginOptimistic (k : QueryKey) (f : Option α → α) (s : Store α) :
    Option α × Store α :=
  (getQueryData k s, setQueryDataFn k f s)

/-- `useOptimisticUpdate.updateOptimistically`: capture and patch, await the
mutation, then on success overwrite with the authoritative result and on
failure restore the captured `previousData`. -/
def updateOptimistically (k : QueryKey) (f : Option α → α)
    (mres : Except String α) (s : Store α) : Store α :=
  let pc := beginOptimistic k f s
  match mres with
  | .ok result => setQueryData k (some result) pc.2
  | .error _ => setQueryData k pc.1 pc.2

/-- `AdminCacheManager.updateOptimistically` (no `rollbackFn` supplied):
returns the optimistically patched store together with the rollback action,
which writes the captured `previousData` back. -/
def managerUpdateOptimistically (k : QueryKey) (f : Option α → α)
    (s : Store α) : Store α × (Store α → Store α) :=
  let previousData := getQueryData k s
  (setQueryDataFn k f s, fun t => setQueryData k previousData t)

/-! ## Realtime reconnect machine
(`src/hooks/use-admin-realtime.ts`, `eventSource.onerror` / `onopen`) -/

structure RTConn where
  isConnected : Bool
  connectionError : Option String
  reconnectAttempts : Nat
  deriving DecidableEq

/-- The connection state before the first event. -/
def initConn : RTConn :=
  { isConnected := false, connectionError := none, reconnectAttempts := 0 }

/-- `eventSource.onopen`: connected, error cleared, attempt counter reset. -/
def onOpen (_c : RTConn) : RTConn :=
  { isConnected := true, connectionError := none, reconnectAttempts := 0 }

/-- `eventSource.onerror`: mark disconnected; under 5 attempts, bump the
counter and schedule a reconnect after `reconnectInterval * attempts`
(returned as `some delay`); otherwise schedule nothing and surface the
persistent-disconnection error. -/
def onError (interval : Nat) (c : RTConn) : RTConn × Option Nat :=
  let c1 := { c with isConnected := false, connectionError := some "Connection error" }
  if c1.reconnectAttempts < 5 then
    let a := c1.reconnectAttempts + 1
    ({ c1 with reconnectAttempts := a }, some (interval * a))
  else
    ({ c1 with connectionError := some "Max reconnection attempts reached" }, none)

/-- Run `n` consecutive connection errors (each scheduled reconnect attempt
failing again), collecting the scheduled reconnect delays in order. -/
def runErrors (interval : Nat) : Nat → RTConn → RTConn × List Nat
  | 0, c => (c, [])
  | n + 1, c =>
      let step := onError interval c
      let rest := runErrors interval n step.1
      (rest.1, (match step.2 with | some d => [d] | none => []) ++ rest.2)

/-! ## Admin mutation hooks
(`src/hooks/use-admin-realtime.ts`, appended admin mutation hooks file) -/

inductive AdminMutationHook where
  | updateOrderStatus | createProduct | updateProduct | deleteProduct
  | createCategory | updateCategory | deleteCategory
  | updateCustomer | deleteCustomer | updateSettings | resetSettings
  deriving DecidableEq

/-- The `onSuccess` invalidations of each hook, in source order. -/
def hookSuccessInvalidations : AdminMutationHook → List QueryKey
  | .updateOrderStatus => [[kp "admin", kp "orders"], [kp "admin", kp "dashboard"]]
  | .createProduct => [[kp "admin", kp "products"], [kp "admin", kp "dashboard"]]
  | .updateProduct => [[kp "admin", kp "products"], [kp "admin", kp "dashboard"]]
  | .deleteProduct => [[kp "admin", kp "products"], [kp "admin", kp "dashboard"]]
  | .createCategory => [[kp "admin", kp "categories"], [kp "admin", kp "dashboard"]]
  | .updateCategory => [[kp "admin", kp "categories"], [kp "admin", kp "dashboard"]]
  | .deleteCategory => [[kp "admin", kp "categories"], [kp "admin", kp "dashboard"]]
  | .updateCustomer => [[kp "admin", kp "customers"], [kp "admin", kp "dashboard"]]
  | .deleteCustomer => [[kp "admin", kp "customers"], [kp "admin", kp "dashboard"]]
  | .updateSettings => [[kp "admin", kp "settings"]]
  | .resetSettings => [[kp "admin", kp "settings"]]

/-- Run one admin mutation hook: the `mutationFn` throws when the user is not
an admin; `onSuccess` performs the hook's invalidations; `onError` only shows
a toast.  Returns the store and whether the mutation succeeded. -/
def runAdminMutation (h : AdminMutationHook) (isAdmin : Bool)
    (backend : Except String Unit) (s : Store α) : Store α × Bool :=
  let outcome : Except String Unit :=
    if isAdmin then backend else .error "Admin access required"
  match outcome with
  | .ok _ =>
      ((hookSuccessInvalidations h).foldl (fun acc p => invalidateQueries p acc) s, true)
  | .error _ => (s, false)

/-! ## API client request flow (`ApiClient.request`, unnamed api-client file) -/

/-- One character list starts with another. -/
def chListStarts : List Char → List Char → Bool
  | [], _ => true
  | _ :: _, [] => false
  | c :: cs, d :: ds => if c = d then chListStarts cs ds else false

/-- One character list occurs inside another. -/
def chListIncl (pat : List Char) : List Char → Bool
  | [] => chListStarts pat []
  | d :: ds => if chListStarts pat (d :: ds) then true else chListIncl pat ds

/-- `endpoint.includes(pat)`. -/
def strIncludes (s pat : String) : Bool := chListIncl pat.data s.data

/-- `Response.ok`. -/
def statusOk (st : Nat) : Bool := decide (200 ≤ st) && decide (st < 300)

/-- The responses the backend would give: the status of the first fetch,
whether the refresh-token call succeeds, and the status of the retried
fetch (used only when a retry happens). -/
structure ApiEnv where
  firstStatus : Nat
  refreshOk : Bool
  retryStatus : Nat
  deriving DecidableEq

inductive ApiOutcome where
  | success
  | apiError (status : Nat)
  | sessionExpired
  deriving DecidableEq

/-- What one `ApiClient.request` call did: its outcome, how many times the
original endpoint was fetched, and whether the session-expiry handler ran
(`authStore.logout()` plus redirect to `/login`). -/
structure RequestTrace where
  outcome : ApiOutcome
  fetchCalls : Nat
  loggedOut : Bool
  deriving DecidableEq

/-- `ApiClient.request`: on a 401 outside the auth endpoints, first refresh
the tokens; on a successful refresh retry the original request once; on a
failed refresh log out, redirect to login, and throw `SESSION_EXPIRED`. -/
def apiRequest (endpoint : String) (env : ApiEnv) : RequestTrace :=
  if env.firstStatus = 401 && !(strIncludes endpoint "/auth/refresh-token")
      && !(strIncludes endpoint "/auth/login") then
    if env.refreshOk then
      if statusOk env.retryStatus then
        { outcome := .success, fetchCalls := 2, loggedOut := false }
      else
        { outcome := .apiError env.retryStatus, fetchCalls := 2, loggedOut := false }
    else
      { outcome := .sessionExpired, fetchCalls := 1, loggedOut := true }
  else if !(statusOk env.firstStatus) then
    { outcome := .apiError env.firstStatus, fetchCalls := 1, loggedOut := false }
  else
    { outcome := .success, fetchCalls := 1, loggedOut := false }

/-! ## Cache-manager singleton
(`src/lib/admin-cache-manager.ts`, `getAdminCacheManager` / `useAdminCacheManager`) -/

structure QueryClientId where
  cid : Nat
  deriving DecidableEq

/-- An `AdminCacheManager` object: it holds the query client it was
constructed with and all its operations act on that client. -/
structure AdminCacheManagerRef where
  client : QueryClientId
  deriving DecidableEq

/-- The module-level `adminCacheManager` variable. -/
abbrev ManagerGlobal := Option AdminCacheManagerRef

/-- `getAdminCacheManager(queryClient)`: construct the manager on the first
call, return the already-constructed one (ignoring the argument) afterwards. -/
def getAdminCacheManager (qc : QueryClientId) (g : ManagerGlobal) :
    AdminCacheManagerRef × ManagerGlobal :=
  match g with
  | none => ({ client := qc }, some { client := qc })
  | some m => (m, some m)

/-- `useAdminCacheManager()`: construct a fresh `QueryClient` and pass it to
`getAdminCacheManager`. -/
def useAdminCacheManager (freshClient : QueryClientId) (g : ManagerGlobal) :
    AdminCacheManagerRef × ManagerGlobal :=
  getAdminCacheManager freshClient g

/-- The per-client world of query caches. -/
abbrev World (α : Type) := QueryClientId → Store α

/-- A manager operation (here `invalidateDashboard`) acts on the query client
the manager holds and touches no other client's cache. -/
def managerInvalidateDashboard (m : AdminCacheManagerRef) (w : World α) : World α :=
  fun q => if q = m.client then invalidateDashboard (w q) else w q

/-! ## Key builders under test and concrete witness fixtures -/

/-- Store used to witness the mutation invalidation claims. -/
def c1Store : Store Nat := fun k =>
  if k = [kp "admin", kp "orders", kp "stats"] then some { stale := false, data := 3 }
  else if k = [kp "admin", kp "categories", kp "list"] then some { stale := false, data := 7 }
  else none

/-- Store used to witness the idempotence claims: a single already-stale
orders list entry. -/
def c8Store : Store Nat := fun k =>
  if k = [kp "admin", kp "orders", kp "list"] then some { stale := true, data := 5 }
  else none

/-- Store used in the realtime-event counterexample: a fresh orders stats
entry and a fresh dashboard overview entry. -/
def c2Store : Store Nat := fun k =>
  if k = [kp "admin", kp "orders", kp "stats"] then some { stale := false, data := 0 }
  else if k = [kp "admin", kp "dashboard", kp "overview"] then some { stale := false, data := 1 }
  else none

/-- Store used to witness the amended realtime-event claim: fresh entries
under orders stats, dashboard overview, dashboard recent-orders and
products list. -/
def c2StoreW : Store Nat := fun k =>
  if k = [kp "admin", kp "orders", kp "stats"] then some { stale := false, data := 0 }
  else if k = [kp "admin", kp "dashboard", kp "overview"] then some { stale := false, data := 1 }
  else if k = [kp "admin", kp "dashboard", kp "recent-orders"] then some { stale := false, data := 2 }
  else if k = [kp "admin", kp "products", kp "list"] then some { stale := false, data := 3 }
  else none

/-- Key and store used to witness the rollback claim. -/
def c3Key : QueryKey := [kp "admin", kp "orders", kp "detail", kp "9"]

def c3Store : Store Nat := fun k =>
  if k = c3Key then some { stale := false, data := 5 } else none

/-- Key and store used to witness the overlapping-capture claim. -/
def c4Key : QueryKey := [kp "admin", kp "products", kp "detail", kp "3"]

def c4Store : Store Nat := fun k =>
  if k = c4Key then some { stale := false, data := 1 } else none

/-- Environment used in the 401-handling counterexample: the first fetch
gets a 401, the token refresh succeeds, the retried fetch gets a 200. -/
def c5Env : ApiEnv := { firstStatus := 401, refreshOk := true, retryStatus := 200 }

/-- Store used to witness the failed-mutation frame claim. -/
def c9Store : Store Nat := fun k =>
  if k = [kp "admin", kp "products", kp "list"] then some { stale := false, data := 2 }
  else none

/-- World used to witness the singleton claim. -/
def c10World : World Nat := fun _ => fun _ => none

/-- The `list` cache key builders of `ADMIN_CACHE_KEYS`:
`['admin', resource, 'list', params].filter(Boolean)` — the params object is
kept when present (objects are truthy) and dropped when absent. -/
def resourceListKey (r : Resource) (params : Option ParamsObj) : QueryKey :=
  [kp "admin", kp r.rname, kp "list"] ++
    (match params with | some p => [KeyPart.obj p] | none => [])

/-- Fields used in the key-determinism witness, in one insertion order. -/
def c7Params1 : ParamsObj := [("page", JVal.jnum 1), ("limit", JVal.jnum 20)]

/-- The same fields in the opposite insertion order. -/
def c7Params2 : ParamsObj := [("limit", JVal.jnum 20), ("page", JVal.jnum 1)]

/-- Store holding one entry under the canonical orders-list key. -/
def c7Store : Store Nat := fun k =>
  if k = [kp "admin", kp "orders", kp "list",
      KeyPart.obj [("limit", JVal.jnum 20), ("page", JVal.jnum 1)]] then
    some { stale := false, data := 9 }
  else none

/-! ## Basic store lemmas -/

lemma invalidateQueries_apply_pos (p k : QueryKey) (s : Store α)
    (h : keyStartsWith p k = true) :
    invalidateQueries p s k = (s k).map markStale := by
  simp [invalidateQueries, h]

lemma invalidateQueries_apply_neg (p k : QueryKey) (s : Store α)
    (h : keyStartsWith p k = false) :
    invalidateQueries p s k = s k := by
  simp [invalidateQueries, h]

lemma removeQueries_apply_neg (p k : QueryKey) (s : Store α)
    (h : keyStartsWith p k = false) :
    removeQueries p s k = s k := by
  simp [removeQueries, h]

lemma map_markStale_idem (o : Option (CacheState α)) :
    (o.map markStale).map markStale = o.map markStale := by
  cases o <;> rfl

lemma markStale_comp :
    markStale ∘ markStale = (markStale : CacheState α → CacheState α) := by
  funext e
  rfl

lemma markStale_of_stale (e : CacheState α) (h : e.stale = true) :
    markStale e = e := by
  cases e
  simp only [CacheState.mk.injEq] at h ⊢
  simp [markStale, h]

lemma getQueryData_setQueryData_same (k : QueryKey) (d : α) (s : Store α) :
    getQueryData k (setQueryData k (some d) s) = some d := by
  simp [getQueryData, setQueryData]

/-- C1: for every resource and id, `invalidateAfterMutation` realizes exactly
the spec's invalidation table — create invalidates the resource's list and
stats and the dashboard; update invalidates the item's detail key, the list
and the dashboard (not stats); delete evicts the detail key and invalidates
list, stats and dashboard — and any entry outside the table's prefixes is
left untouched. -/
theorem invalidateAfterMutation_matches_spec_table (r : Resource) (a : MutAction)
    (id : String) (s : Store α) :
    invalidateAfterMutation r a (some id) s = specTableEffect r a id s ∧
    (∀ k, touchedByMutation r a id k = false →
      invalidateAfterMutation r a (some id) s k = s k) := by
  constructor
  · cases a <;> rfl
  · intro k hk
    cases a with
    | create =>
        simp only [touchedByMutation, Bool.or_eq_false_iff] at hk
        obtain ⟨⟨h1, h2⟩, h3⟩ := hk
        simp only [invalidateAfterMutation, invalidateDashboard]
        rw [invalidateQueries_apply_neg _ _ _ h3, invalidateQueries_apply_neg _ _ _ h2,
          invalidateQueries_apply_neg _ _ _ h1]
    | update =>
        simp only [touchedByMutation, Bool.or_eq_false_iff] at hk
        obtain ⟨⟨h1, h2⟩, h3⟩ := hk
        simp only [invalidateAfterMutation, invalidateDashboard]
        rw [invalidateQueries_apply_neg _ _ _ h3, invalidateQueries_apply_neg _ _ _ h2,
          invalidateQueries_apply_neg _ _ _ h1]
    | delete =>
        simp only [touchedByMutation, Bool.or_eq_false_iff] at hk
        obtain ⟨⟨⟨h1, h2⟩, h3⟩, h4⟩ := hk
        simp only [invalidateAfterMutation, invalidateDashboard]
        rw [invalidateQueries_apply_neg _ _ _ h4, invalidateQueries_apply_neg _ _ _ h3,
          invalidateQueries_apply_neg _ _ _ h2, removeQueries_apply_neg _ _ _ h1]

/-- C1 witness: at orders/update/"7", the code equals the table row, and the
categories list entry — outside every prefix of that row — is untouched. -/
theorem invalidateAfterMutation_matches_spec_table_witness :
    invalidateAfterMutation Resource.orders MutAction.update (some "7") c1Store =
      specTableEffect Resource.orders MutAction.update "7" c1Store ∧
    invalidateAfterMutation Resource.orders MutAction.update (some "7") c1Store
        [kp "admin", kp "categories", kp "list"] =
      c1Store [kp "admin", kp "categories", kp "list"] :=
  ⟨(invalidateAfterMutation_matches_spec_table Resource.orders MutAction.update "7" c1Store).1,
   (invalidateAfterMutation_matches_spec_table Resource.orders MutAction.update "7" c1Store).2
     [kp "admin", kp "categories", kp "list"] (by decide)⟩

/-- C8: prefix invalidation is idempotent and monotonic — invalidating the
same prefix twice equals invalidating it once, invalidating a prefix all of
whose matching entries are already stale changes nothing, and replaying the
same mutation invalidation or realtime event leaves the store as after one
application. -/
theorem invalidation_idempotent (s : Store α) (p : QueryKey) :
    invalidateQueries p (invalidateQueries p s) = invalidateQueries p s ∧
    ((∀ k e, s k = some e → keyStartsWith p k = true → e.stale = true) →
      invalidateQueries p s = s) ∧
    (∀ (r : Resource) (a : MutAction) (id : Option String),
      invalidateAfterMutation r a id (invalidateAfterMutation r a id s) =
        invalidateAfterMutation r a id s) ∧
    (∀ t, handleRealtimeEvent t (handleRealtimeEvent t s) =
      handleRealtimeEvent t s) := by
  refine ⟨?_, ?_, ?_, ?_⟩
  · funext k
    by_cases h : keyStartsWith p k <;>
      simp [invalidateQueries, h, map_markStale_idem, markStale_comp]
  · intro hstale
    funext k
    by_cases h : keyStartsWith p k
    · rw [invalidateQueries_apply_pos _ _ _ h]
      cases hsk : s k with
      | none => rfl
      | some e => simp [markStale_of_stale e (hstale k e hsk h)]
    · rw [invalidateQueries_apply_neg _ _ _ (by simpa using h)]
  · intro r a id
    cases a with
    | create =>
        funext k
        by_cases h1 : keyStartsWith [kp "admin", kp r.rname, kp "list"] k <;>
          by_cases h2 : keyStartsWith [kp "admin", kp r.rname, kp "stats"] k <;>
          by_cases h3 : keyStartsWith [kp "admin", kp "dashboard"] k <;>
          simp [invalidateAfterMutation, invalidateDashboard, invalidateQueries,
            h1, h2, h3, map_markStale_idem, markStale_comp]
    | update =>
        cases id with
        | none =>
            funext k
            by_cases h1 : keyStartsWith [kp "admin", kp r.rname, kp "list"] k <;>
              by_cases h3 : keyStartsWith [kp "admin", kp "dashboard"] k <;>
              simp [invalidateAfterMutation, invalidateDashboard, invalidateQueries,
                h1, h3, map_markStale_idem, markStale_comp]
        | some i =>
            funext k
            by_cases h0 : keyStartsWith [kp "admin", kp r.rname, kp "detail", kp i] k <;>
              by_cases h1 : keyStartsWith [kp "admin", kp r.rname, kp "list"] k <;>
              by_cases h3 : keyStartsWith [kp "admin", kp "dashboard"] k <;>
              simp [invalidateAfterMutation, invalidateDashboard, invalidateQueries,
                h0, h1, h3, map_markStale_idem, markStale_comp]
    | delete =>
        cases id with
        | none =>
            funext k
            by_cases h1 : keyStartsWith [kp "admin", kp r.rname, kp "list"] k <;>
              by_cases h2 : keyStartsWith [kp "admin", kp r.rname, kp "stats"] k <;>
              by_cases h3 : keyStartsWith [kp "admin", kp "dashboard"] k <;>
              simp [invalidateAfterMutation, invalidateDashboard, invalidateQueries,
                h1, h2, h3, map_markStale_idem, markStale_comp]
        | some i =>
            funext k
            by_cases h0 : keyStartsWith [kp "admin", kp r.rname, kp "detail", kp i] k <;>
              by_cases h1 : keyStartsWith [kp "admin", kp r.rname, kp "list"] k <;>
              by_cases h2 : keyStartsWith [kp "admin", kp r.rname, kp "stats"] k <;>
              by_cases h3 : keyStartsWith [kp "admin", kp "dashboard"] k <;>
              simp [invalidateAfterMutation, invalidateDashboard, invalidateQueries,
                removeQueries, h0, h1, h2, h3, map_markStale_idem, markStale_comp]
  · intro t
    cases t with
    | connected => rfl
    | unknown => rfl
    | stats_update =>
        funext k
        by_cases h : keyStartsWith [kp "admin", kp "dashboard", kp "stats"] k <;>
          simp [handleRealtimeEvent, invalidateQueries, h, map_markStale_idem, markStale_comp]
    | order_update =>
        funext k
        by_cases h1 : keyStartsWith [kp "admin", kp "dashboard", kp "recent-orders"] k <;>
          by_cases h2 : keyStartsWith [kp "admin", kp "orders"] k <;>
          simp [handleRealtimeEvent, invalidateQueries, h1, h2, map_markStale_idem, markStale_comp]
    | product_update =>
        funext k
        by_cases h1 : keyStartsWith [kp "admin", kp "dashboard", kp "top-products"] k <;>
          by_cases h2 : keyStartsWith [kp "admin", kp "products"] k <;>
          simp [handleRealtimeEvent, invalidateQueries, h1, h2, map_markStale_idem, markStale_comp]
    | customer_update =>
        funext k
        by_cases h1 : keyStartsWith [kp "admin", kp "dashboard", kp "recent-customers"] k <;>
          by_cases h2 : keyStartsWith [kp "admin", kp "customers"] k <;>
          simp [handleRealtimeEvent, invalidateQueries, h1, h2, map_markStale_idem, markStale_comp]

/-- C8 witness: on a store whose only orders-list entry is already stale,
double invalidation equals single invalidation, invalidating anew changes
nothing, and a replayed orders/update mutation and order_update event are
no-ops on the second application. -/
theorem invalidation_idempotent_witness :
    invalidateQueries [kp "admin", kp "orders"]
        (invalidateQueries [kp "admin", kp "orders"] c8Store) =
      invalidateQueries [kp "admin", kp "orders"] c8Store ∧
    invalidateQueries [kp "admin", kp "orders"] c8Store = c8Store ∧
    invalidateAfterMutation Resource.orders MutAction.update (some "1")
        (invalidateAfterMutation Resource.orders MutAction.update (some "1") c8Store) =
      invalidateAfterMutation Resource.orders MutAction.update (some "1") c8Store ∧
    handleRealtimeEvent RTEventType.order_update
        (handleRealtimeEvent RTEventType.order_update c8Store) =
      handleRealtimeEvent RTEventType.order_update c8Store := by
  have h := invalidation_idempotent c8Store [kp "admin", kp "orders"]
  refine ⟨h.1, h.2.1 ?_, h.2.2.1 Resource.orders MutAction.update (some "1"),
    h.2.2.2 RTEventType.order_update⟩
  intro k e hk _
  by_cases hkey : k = [kp "admin", kp "orders", kp "list"]
  · rw [c8Store, if_pos hkey] at hk
    cases hk
    rfl
  · rw [c8Store, if_neg hkey] at hk
    cases hk

lemma keyStartsWith_two (x y : KeyPart) (k : QueryKey) :
    keyStartsWith [x, y] k = true ↔ ∃ t, k = x :: y :: t := by
  constructor
  · intro h
    match k with
    | [] => simp [keyStartsWith] at h
    | [a] =>
        by_cases hx : x = a <;> simp [keyStartsWith, hx] at h
    | a :: b :: t =>
        by_cases hx : x = a
        · by_cases hy : y = b
          · exact ⟨t, by rw [hx, hy]⟩
          · simp [keyStartsWith, hx, hy] at h
        · simp [keyStartsWith, hx] at h
  · rintro ⟨t, rfl⟩
    simp [keyStartsWith]

lemma keyStartsWith_three (x y z : KeyPart) (k : QueryKey) :
    keyStartsWith [x, y, z] k = true → ∃ t, k = x :: y :: z :: t := by
  intro h
  match k with
  | [] => simp [keyStartsWith] at h
  | [a] =>
      by_cases hx : x = a <;> simp [keyStartsWith, hx] at h
  | [a, b] =>
      by_cases hx : x = a
      · by_cases hy : y = b <;> simp [keyStartsWith, hx, hy] at h
      · simp [keyStartsWith, hx] at h
  | a :: b :: c :: t =>
      by_cases hx : x = a
      · by_cases hy : y = b
        · by_cases hz : z = c
          · exact ⟨t, by rw [hx, hy, hz]⟩
          · simp [keyStartsWith, hx, hy, hz] at h
        · simp [keyStartsWith, hx, hy] at h
      · simp [keyStartsWith, hx] at h

/-- C2 counterexample: an `order_update` event does NOT trigger the same
invalidation as a local (orders, update) mutation.  The event stales the
orders stats entry (which the update row leaves fresh) and leaves the
dashboard overview entry fresh (which the update row stales), so the two
resulting stores differ. -/
theorem realtime_event_differs_from_update_row :
    handleRealtimeEvent RTEventType.order_update c2Store
        [kp "admin", kp "orders", kp "stats"] =
      some { stale := true, data := 0 } ∧
    invalidateAfterMutation Resource.orders MutAction.update (some "1") c2Store
        [kp "admin", kp "orders", kp "stats"] =
      some { stale := false, data := 0 } ∧
    handleRealtimeEvent RTEventType.order_update c2Store
        [kp "admin", kp "dashboard", kp "overview"] =
      some { stale := false, data := 1 } ∧
    invalidateAfterMutation Resource.orders MutAction.update (some "1") c2Store
        [kp "admin", kp "dashboard", kp "overview"] =
      some { stale := true, data := 1 } ∧
    handleRealtimeEvent RTEventType.order_update c2Store ≠
      invalidateAfterMutation Resource.orders MutAction.update (some "1") c2Store := by
  refine ⟨by decide, by decide, by decide, by decide, fun h => ?_⟩
  have h2 := congrFun h [kp "admin", kp "orders", kp "stats"]
  revert h2
  decide

/-- C2 amended: each realtime event triggers its own fixed invalidation
pair, not the update row of the mutation table.  For `order_update`,
`product_update` and `customer_update` the event stales exactly the entries
under the whole `['admin', resource]` prefix — a superset, within the
resource namespace, of what the (resource, update) mutation row invalidates,
additionally covering `{resource}.stats` — together with the entries under
the event's single dashboard sub-key (`recent-orders` / `top-products` /
`recent-customers`); every entry outside those two prefixes, in particular
every other dashboard entry and every other resource's entries, is left
untouched.  `stats_update` stales exactly the entries under
`['admin', 'dashboard', 'stats']`. -/
theorem realtime_event_invalidation_amended (r : Resource) (t : RTEventType)
    (hrt : eventFor r = some t) (s : Store α) (k : QueryKey) :
    (keyStartsWith [kp "admin", kp r.rname] k = true →
      handleRealtimeEvent t s k = (s k).map markStale) ∧
    (keyStartsWith (eventDashKey t) k = true →
      handleRealtimeEvent t s k = (s k).map markStale) ∧
    (keyStartsWith [kp "admin", kp r.rname] k = false →
      keyStartsWith (eventDashKey t) k = false →
      handleRealtimeEvent t s k = s k) ∧
    (keyStartsWith [kp "admin", kp "dashboard", kp "stats"] k = true →
      handleRealtimeEvent RTEventType.stats_update s k = (s k).map markStale) ∧
    (keyStartsWith [kp "admin", kp "dashboard", kp "stats"] k = false →
      handleRealtimeEvent RTEventType.stats_update s k = s k) := by
  have hstats : ∀ hk : keyStartsWith [kp "admin", kp "dashboard", kp "stats"] k = true,
      handleRealtimeEvent RTEventType.stats_update s k = (s k).map markStale := by
    intro hk
    simp only [handleRealtimeEvent]
    rw [invalidateQueries_apply_pos _ _ _ hk]
  have hstats2 : ∀ hk : keyStartsWith [kp "admin", kp "dashboard", kp "stats"] k = false,
      handleRealtimeEvent RTEventType.stats_update s k = s k := by
    intro hk
    simp only [handleRealtimeEvent]
    rw [invalidateQueries_apply_neg _ _ _ hk]
  cases r with
  | categories => simp [eventFor] at hrt
  | orders =>
      simp only [eventFor, Option.some.injEq] at hrt
      subst hrt
      refine ⟨?_, ?_, ?_, fun hk => hstats hk, fun hk2 => hstats2 hk2⟩
      · intro hres
        simp only [Resource.rname] at hres
        obtain ⟨t0, rfl⟩ := (keyStartsWith_two _ _ _).mp hres
        simp only [handleRealtimeEvent]
        rw [invalidateQueries_apply_pos _ _ _ hres]
        have hne : (kp "dashboard" : KeyPart) ≠ kp "orders" := by decide
        have hinner : invalidateQueries [kp "admin", kp "dashboard", kp "recent-orders"] s
            (kp "admin" :: kp "orders" :: t0) = s (kp "admin" :: kp "orders" :: t0) := by
          apply invalidateQueries_apply_neg
          simp [keyStartsWith, hne]
        rw [hinner]
      · intro hsub
        simp only [eventDashKey] at hsub
        obtain ⟨t0, rfl⟩ := keyStartsWith_three _ _ _ _ hsub
        have hne : (kp "orders" : KeyPart) ≠ kp "dashboard" := by decide
        simp only [handleRealtimeEvent]
        rw [invalidateQueries_apply_neg _ _ _ (by simp [keyStartsWith, hne]),
          invalidateQueries_apply_pos _ _ _ hsub]
      · intro hres hsub
        simp only [Resource.rname] at hres
        simp only [eventDashKey] at hsub
        simp only [handleRealtimeEvent]
        rw [invalidateQueries_apply_neg _ _ _ hres, invalidateQueries_apply_neg _ _ _ hsub]
  | products =>
      simp only [eventFor, Option.some.injEq] at hrt
      subst hrt
      refine ⟨?_, ?_, ?_, fun hk => hstats hk, fun hk2 => hstats2 hk2⟩
      · intro hres
        simp only [Resource.rname] at hres
        obtain ⟨t0, rfl⟩ := (keyStartsWith_two _ _ _).mp hres
        simp only [handleRealtimeEvent]
        rw [invalidateQueries_apply_pos _ _ _ hres]
        have hne : (kp "dashboard" : KeyPart) ≠ kp "products" := by decide
        have hinner : invalidateQueries [kp "admin", kp "dashboard", kp "top-products"] s
            (kp "admin" :: kp "products" :: t0) = s (kp "admin" :: kp "products" :: t0) := by
          apply invalidateQueries_apply_neg
          simp [keyStartsWith, hne]
        rw [hinner]
      · intro hsub
        simp only [eventDashKey] at hsub
        obtain ⟨t0, rfl⟩ := keyStartsWith_three _ _ _ _ hsub
        have hne : (kp "products" : KeyPart) ≠ kp "dashboard" := by decide
        simp only [handleRealtimeEvent]
        rw [invalidateQueries_apply_neg _ _ _ (by simp [keyStartsWith, hne]),
          invalidateQueries_apply_pos _ _ _ hsub]
      · intro hres hsub
        simp only [Resource.rname] at hres
        simp only [eventDashKey] at hsub
        simp only [handleRealtimeEvent]
        rw [invalidateQueries_apply_neg _ _ _ hres, invalidateQueries_apply_neg _ _ _ hsub]
  | customers =>
      simp only [eventFor, Option.some.injEq] at hrt
      subst hrt
      refine ⟨?_, ?_, ?_, fun hk => hstats hk, fun hk2 => hstats2 hk2⟩
      · intro hres
        simp only [Resource.rname] at hres
        obtain ⟨t0, rfl⟩ := (keyStartsWith_two _ _ _).mp hres
        simp only [handleRealtimeEvent]
        rw [invalidateQueries_apply_pos _ _ _ hres]
        have hne : (kp "dashboard" : KeyPart) ≠ kp "customers" := by decide
        have hinner : invalidateQueries [kp "admin", kp "dashboard", kp "recent-customers"] s
            (kp "admin" :: kp "customers" :: t0) = s (kp "admin" :: kp "customers" :: t0) := by
          apply invalidateQueries_apply_neg
          simp [keyStartsWith, hne]
        rw [hinner]
      · intro hsub
        simp only [eventDashKey] at hsub
        obtain ⟨t0, rfl⟩ := keyStartsWith_three _ _ _ _ hsub
        have hne : (kp "customers" : KeyPart) ≠ kp "dashboard" := by decide
        simp only [handleRealtimeEvent]
        rw [invalidateQueries_apply_neg _ _ _ (by simp [keyStartsWith, hne]),
          invalidateQueries_apply_pos _ _ _ hsub]
      · intro hres hsub
        simp only [Resource.rname] at hres
        simp only [eventDashKey] at hsub
        simp only [handleRealtimeEvent]
        rw [invalidateQueries_apply_neg _ _ _ hres, invalidateQueries_apply_neg _ _ _ hsub]

/-- C2 witness: concrete instances of the amended event invalidation on a
store with fresh entries — `order_update` stales the orders stats entry and
the dashboard recent-orders entry, while the dashboard overview and
products list entries survive it untouched; `stats_update` stales the
dashboard stats key and leaves the orders stats entry alone. -/
theorem realtime_event_invalidation_amended_witness :
    handleRealtimeEvent RTEventType.order_update c2StoreW
        [kp "admin", kp "orders", kp "stats"] =
      (c2StoreW [kp "admin", kp "orders", kp "stats"]).map markStale ∧
    handleRealtimeEvent RTEventType.order_update c2StoreW
        [kp "admin", kp "dashboard", kp "recent-orders"] =
      (c2StoreW [kp "admin", kp "dashboard", kp "recent-orders"]).map markStale ∧
    handleRealtimeEvent RTEventType.order_update c2StoreW
        [kp "admin", kp "dashboard", kp "overview"] =
      c2StoreW [kp "admin", kp "dashboard", kp "overview"] ∧
    handleRealtimeEvent RTEventType.order_update c2StoreW
        [kp "admin", kp "products", kp "list"] =
      c2StoreW [kp "admin", kp "products", kp "list"] ∧
    handleRealtimeEvent RTEventType.stats_update c2StoreW
        [kp "admin", kp "dashboard", kp "stats"] =
      (c2StoreW [kp "admin", kp "dashboard", kp "stats"]).map markStale ∧
    handleRealtimeEvent RTEventType.stats_update c2StoreW
        [kp "admin", kp "orders", kp "stats"] =
      c2StoreW [kp "admin", kp "orders", kp "stats"] :=
  ⟨(realtime_event_invalidation_amended Resource.orders RTEventType.order_update rfl
      c2StoreW [kp "admin", kp "orders", kp "stats"]).1 (by decide),
   (realtime_event_invalidation_amended Resource.orders RTEventType.order_update rfl
      c2StoreW [kp "admin", kp "dashboard", kp "recent-orders"]).2.1 (by decide),
   (realtime_event_invalidation_amended Resource.orders RTEventType.order_update rfl
      c2StoreW [kp "admin", kp "dashboard", kp "overview"]).2.2.1 (by decide) (by decide),
   (realtime_event_invalidation_amended Resource.orders RTEventType.order_update rfl
      c2StoreW [kp "admin", kp "products", kp "list"]).2.2.1 (by decide) (by decide),
   (realtime_event_invalidation_amended Resource.orders RTEventType.order_update rfl
      c2StoreW [kp "admin", kp "dashboard", kp "stats"]).2.2.2.1 (by decide),
   (realtime_event_invalidation_amended Resource.orders RTEventType.order_update rfl
      c2StoreW [kp "admin", kp "orders", kp "stats"]).2.2.2.2 (by decide)⟩

/-- C3: if the mutation fails, the rollback path restores the captured
`previousData` unchanged — both in the optimistic-update hook and in the
cache manager's `updateOptimistically` rollback. -/
theorem optimistic_rollback_restores (s : Store α) (k : QueryKey)
    (f : Option α → α) (err : String) (v : α)
    (h : getQueryData k s = some v) :
    getQueryData k (updateOptimistically k f (Except.error err) s) = some v ∧
    getQueryData k ((managerUpdateOptimistically k f s).2
      ((managerUpdateOptimistically k f s).1)) = some v := by
  constructor
  · show getQueryData k (setQueryData k (getQueryData k s) (setQueryDataFn k f s)) = some v
    rw [h]
    exact getQueryData_setQueryData_same k v _
  · show getQueryData k (setQueryData k (getQueryData k s) (setQueryDataFn k f s)) = some v
    rw [h]
    exact getQueryData_setQueryData_same k v _

/-- C3 witness: with 5 cached under the detail key, an optimistic write of 7
followed by a failing mutation leaves 5 in the cache again. -/
theorem optimistic_rollback_restores_witness :
    getQueryData c3Key
        (updateOptimistically c3Key (fun _ => 7) (Except.error "fail") c3Store) =
      some 5 ∧
    getQueryData c3Key ((managerUpdateOptimistically c3Key (fun _ => 7) c3Store).2
      ((managerUpdateOptimistically c3Key (fun _ => 7) c3Store).1)) = some 5 :=
  optimistic_rollback_restores c3Store c3Key (fun _ => 7) "fail" 5 (by decide)

/-- C4: when a second optimistic update on the same key starts after a first
one applied its speculative value but before the first resolves, the second
capture's `previousData` is the first update's speculative value, not the
value that preceded the first update. -/
theorem overlapping_optimistic_capture (s : Store α) (k : QueryKey)
    (f1 f2 : Option α → α) :
    (beginOptimistic k f2 (beginOptimistic k f1 s).2).1 =
      some (f1 (getQueryData k s)) ∧
    (some (f1 (getQueryData k s)) ≠ getQueryData k s →
      (beginOptimistic k f2 (beginOptimistic k f1 s).2).1 ≠ getQueryData k s) := by
  have hmain : (beginOptimistic k f2 (beginOptimistic k f1 s).2).1 =
      some (f1 (getQueryData k s)) := by
    show getQueryData k (setQueryData k (some (f1 (getQueryData k s))) s) = _
    exact getQueryData_setQueryData_same k _ s
  refine ⟨hmain, fun hne => ?_⟩
  rw [hmain]
  exact hne

/-- C4 witness: with 1 cached, a first optimistic write of 2 makes a second
update capture 2 — not the original 1. -/
theorem overlapping_optimistic_capture_witness :
    (beginOptimistic c4Key (fun _ => 3)
        (beginOptimistic c4Key (fun _ => 2) c4Store).2).1 = some 2 ∧
    (beginOptimistic c4Key (fun _ => 3)
        (beginOptimistic c4Key (fun _ => 2) c4Store).2).1 ≠
      getQueryData c4Key c4Store :=
  ⟨(overlapping_optimistic_capture c4Store c4Key (fun _ => 2) (fun _ => 3)).1,
   (overlapping_optimistic_capture c4Store c4Key (fun _ => 2) (fun _ => 3)).2 (by decide)⟩

/-- C5 counterexample: on a 401 with a succeeding token refresh the client
DOES automatically retry the request — the original endpoint is fetched
twice and no session-expiry handling happens — contradicting the claim that
a 401 is never automatically retried. -/
theorem unauthorized_is_retried_counterexample :
    (apiRequest "/admin/orders" c5Env).fetchCalls = 2 ∧
    (apiRequest "/admin/orders" c5Env).loggedOut = false ∧
    (apiRequest "/admin/orders" c5Env).outcome = ApiOutcome.success := by
  decide

/-- C5 amended: on a 401 outside the auth endpoints the client first
attempts a token refresh; if the refresh succeeds, the request is
automatically retried exactly once (two fetches in total) with no
session-expiry handling; only if the refresh fails is the request not
retried, and the failure is surfaced to the session-expiry handler (logout,
redirect to login, `SESSION_EXPIRED` error). -/
theorem unauthorized_refresh_then_retry (endpoint : String) (env : ApiEnv)
    (h401 : env.firstStatus = 401)
    (hep1 : strIncludes endpoint "/auth/refresh-token" = false)
    (hep2 : strIncludes endpoint "/auth/login" = false) :
    (env.refreshOk = true →
      (apiRequest endpoint env).fetchCalls = 2 ∧
      (apiRequest endpoint env).loggedOut = false) ∧
    (env.refreshOk = false →
      (apiRequest endpoint env).fetchCalls = 1 ∧
      (apiRequest endpoint env).loggedOut = true ∧
      (apiRequest endpoint env).outcome = ApiOutcome.sessionExpired) := by
  have hc : (env.firstStatus = 401 && !(strIncludes endpoint "/auth/refresh-token")
      && !(strIncludes endpoint "/auth/login")) = true := by
    rw [h401, hep1, hep2]
    rfl
  constructor
  · intro hr
    unfold apiRequest
    rw [if_pos hc, if_pos hr]
    by_cases hok : statusOk env.retryStatus = true
    · rw [if_pos hok]
      exact ⟨rfl, rfl⟩
    · rw [if_neg hok]
      exact ⟨rfl, rfl⟩
  · intro hr
    unfold apiRequest
    rw [if_pos hc, if_neg (by rw [hr]; exact Bool.false_ne_true)]
    exact ⟨rfl, rfl, rfl⟩

/-- C5 witness: both branches of the amended 401 flow at concrete inputs —
a succeeding refresh retries once, a failing refresh logs out without a
retry. -/
theorem unauthorized_refresh_then_retry_witness :
    ((ApiEnv.mk 401 true 200).refreshOk = true →
      (apiRequest "/admin/orders" (ApiEnv.mk 401 true 200)).fetchCalls = 2 ∧
      (apiRequest "/admin/orders" (ApiEnv.mk 401 true 200)).loggedOut = false) ∧
    ((ApiEnv.mk 401 false 200).refreshOk = false →
      (apiRequest "/admin/orders" (ApiEnv.mk 401 false 200)).fetchCalls = 1 ∧
      (apiRequest "/admin/orders" (ApiEnv.mk 401 false 200)).loggedOut = true ∧
      (apiRequest "/admin/orders" (ApiEnv.mk 401 false 200)).outcome =
        ApiOutcome.sessionExpired) :=
  ⟨(unauthorized_refresh_then_retry "/admin/orders" (ApiEnv.mk 401 true 200)
      (by decide) (by decide) (by decide)).1,
   (unauthorized_refresh_then_retry "/admin/orders" (ApiEnv.mk 401 false 200)
      (by decide) (by decide) (by decide)).2⟩

/-- C9: when an admin mutation fails (backend error or missing admin role),
the hooks perform no cache invalidation — the store, including every entry's
staleness, is exactly as before the mutation; invalidation runs only on the
success path. -/
theorem mutation_failure_no_invalidation (h : AdminMutationHook) (isAdmin : Bool)
    (backend : Except String Unit) (s : Store α) :
    (∀ err, backend = Except.error err → (runAdminMutation h isAdmin backend s).1 = s) ∧
    (isAdmin = false → (runAdminMutation h isAdmin backend s).1 = s) ∧
    ((runAdminMutation h isAdmin backend s).2 = false →
      (runAdminMutation h isAdmin backend s).1 = s) := by
  unfold runAdminMutation
  cases isAdmin <;> cases backend <;> simp

/-- C9 witness: a failing `useCreateProduct` mutation and a non-admin
`useUpdateOrderStatus` call both leave the concrete store untouched. -/
theorem mutation_failure_no_invalidation_witness :
    (runAdminMutation AdminMutationHook.createProduct true
        (Except.error "boom") c9Store).1 = c9Store ∧
    (runAdminMutation AdminMutationHook.updateOrderStatus false
        (Except.ok ()) c9Store).1 = c9Store :=
  ⟨(mutation_failure_no_invalidation AdminMutationHook.createProduct true
      (Except.error "boom") c9Store).1 "boom" rfl,
   (mutation_failure_no_invalidation AdminMutationHook.updateOrderStatus false
      (Except.ok ()) c9Store).2.1 rfl⟩

/-- C10: `getAdminCacheManager` is a module-level singleton that ignores its
argument after the first call — a second call with a different query client
returns the identical manager, still bound to the first client; every
`useAdminCacheManager` caller after the first gets a manager acting on the
first-ever-registered client, and manager operations never touch the client
just constructed. -/
theorem getAdminCacheManager_singleton (c1 c2 : QueryClientId) :
    (getAdminCacheManager c2 (getAdminCacheManager c1 none).2).1 =
      (getAdminCacheManager c1 none).1 ∧
    (getAdminCacheManager c2 (getAdminCacheManager c1 none).2).1.client = c1 ∧
    (∀ fresh : QueryClientId,
      (useAdminCacheManager fresh (getAdminCacheManager c1 none).2).1.client = c1) ∧
    (c2 ≠ c1 → ∀ w : World Nat,
      managerInvalidateDashboard
        (getAdminCacheManager c2 (getAdminCacheManager c1 none).2).1 w c2 = w c2) := by
  refine ⟨rfl, rfl, fun fresh => rfl, fun hne w => ?_⟩
  show (if c2 = c1 then invalidateDashboard (w c2) else w c2) = w c2
  rw [if_neg hne]

/-- C10 witness: after registering client 0, a second call with client 1
returns the client-0 manager, a hook call with a fresh client 2 still
targets client 0, and invalidating through the returned manager leaves
client 1's cache untouched. -/
theorem getAdminCacheManager_singleton_witness :
    (getAdminCacheManager (QueryClientId.mk 1)
        (getAdminCacheManager (QueryClientId.mk 0) none).2).1 =
      (getAdminCacheManager (QueryClientId.mk 0) none).1 ∧
    (getAdminCacheManager (QueryClientId.mk 1)
        (getAdminCacheManager (QueryClientId.mk 0) none).2).1.client =
      QueryClientId.mk 0 ∧
    (useAdminCacheManager (QueryClientId.mk 2)
        (getAdminCacheManager (QueryClientId.mk 0) none).2).1.client =
      QueryClientId.mk 0 ∧
    managerInvalidateDashboard
        (getAdminCacheManager (QueryClientId.mk 1)
          (getAdminCacheManager (QueryClientId.mk 0) none).2).1 c10World
        (QueryClientId.mk 1) =
      c10World (QueryClientId.mk 1) :=
  ⟨(getAdminCacheManager_singleton (QueryClientId.mk 0) (QueryClientId.mk 1)).1,
   (getAdminCacheManager_singleton (QueryClientId.mk 0) (QueryClientId.mk 1)).2.1,
   (getAdminCacheManager_singleton (QueryClientId.mk 0) (QueryClientId.mk 1)).2.2.1
     (QueryClientId.mk 2),
   (getAdminCacheManager_singleton (QueryClientId.mk 0) (QueryClientId.mk 1)).2.2.2
     (by decide) c10World⟩

/-- Behavior of `n` consecutive connection errors from a state with `a`
prior attempts: the scheduled delays are `interval * (a+1), ..., interval *
min (a+n) 5`, the counter saturates at 5, and once the budget is exceeded
the persistent-disconnection error is surfaced. -/
lemma runErrors_spec (i : Nat) :
    ∀ (n a : Nat) (c : RTConn), c.reconnectAttempts = a → a ≤ 5 →
      (runErrors i n c).2 =
        (List.range' (a + 1) (min n (5 - a))).map (fun x => i * x) ∧
      (runErrors i n c).1.reconnectAttempts = min (a + n) 5 ∧
      (5 - a < n → (runErrors i n c).1.connectionError =
        some "Max reconnection attempts reached") := by
  intro n
  induction n with
  | zero =>
      intro a c ha hle
      refine ⟨by simp [runErrors], ?_, ?_⟩
      · simp only [runErrors]
        rw [ha]
        omega
      · intro hlt
        omega
  | succ m ih =>
      intro a c ha hle
      by_cases h : a < 5
      · have hstep : onError i c =
            (RTConn.mk false (some "Connection error") (a + 1), some (i * (a + 1))) := by
          simp [onError, ha, h]
        obtain ⟨ih1, ih2, ih3⟩ := ih (a + 1) (onError i c).1 (by rw [hstep]) (by omega)
        have hm : min (m + 1) (5 - a) = min m (5 - (a + 1)) + 1 := by omega
        refine ⟨?_, ?_, ?_⟩
        · simp only [runErrors]
          rw [ih1, hstep, hm, List.range'_succ]
          simp
        · simp only [runErrors]
          rw [ih2]
          omega
        · intro hlt
          simp only [runErrors]
          exact ih3 (by omega)
      · have ha5 : a = 5 := by omega
        subst ha5
        have hstep : onError i c =
            (RTConn.mk false (some "Max reconnection attempts reached") 5, none) := by
          simp [onError, ha]
        obtain ⟨ih1, ih2, ih3⟩ := ih 5 (onError i c).1 (by rw [hstep]) (by omega)
        refine ⟨?_, ?_, ?_⟩
        · simp only [runErrors]
          rw [ih1, hstep]
          simp
        · simp only [runErrors]
          rw [ih2]
          omega
        · intro hlt
          simp only [runErrors]
          cases m with
          | zero =>
              simp only [runErrors]
              rw [hstep]
          | succ m2 => exact ih3 (by omega)

/-- C6: under reconnect interval `i`, each connection error schedules a
reconnect with delay `i * attemptNumber` — `i*1, i*2, ...` up to `i*5`,
strictly increasing for positive `i` — the channel never schedules a sixth
automatic reconnect, after the budget is exhausted it surfaces the
persistent-disconnection error state, and a successful open resets the
attempt counter to 0. -/
theorem reconnect_backoff (i n : Nat) :
    (runErrors i n initConn).2 = (List.range' 1 (min n 5)).map (fun x => i * x) ∧
    (0 < i → List.Chain' (fun x y => x < y) (runErrors i n initConn).2) ∧
    (runErrors i n initConn).2.length ≤ 5 ∧
    (6 ≤ n → (runErrors i n initConn).1.connectionError =
      some "Max reconnection attempts reached") ∧
    (∀ c, (onOpen c).reconnectAttempts = 0 ∧ (onOpen c).isConnected = true) := by
  obtain ⟨h1, h2, h3⟩ := runErrors_spec i n 0 initConn rfl (by omega)
  have hdelays : (runErrors i n initConn).2 =
      (List.range' 1 (min n 5)).map (fun x => i * x) := by
    rw [h1]
  refine ⟨hdelays, ?_, ?_, fun h6 => h3 (by omega), fun c => ⟨rfl, rfl⟩⟩
  · intro hi
    rw [hdelays]
    apply List.Pairwise.chain'
    rw [List.pairwise_map]
    exact (List.pairwise_lt_range' 1 (min n 5)).imp
      (fun hab => mul_lt_mul_of_pos_left hab hi)
  · rw [hdelays]
    simp

/-- C6 witness: with interval 5000 and 7 consecutive errors, exactly five
reconnects are scheduled at strictly increasing delays 5000..25000, the
persistent error is surfaced, and `onOpen` resets the counter. -/
theorem reconnect_backoff_witness :
    (runErrors 5000 7 initConn).2 =
      (List.range' 1 (min 7 5)).map (fun x => 5000 * x) ∧
    List.Chain' (fun x y => x < y) (runErrors 5000 7 initConn).2 ∧
    (runErrors 5000 7 initConn).2.length ≤ 5 ∧
    (runErrors 5000 7 initConn).1.connectionError =
      some "Max reconnection attempts reached" ∧
    (onOpen (RTConn.mk false (some "Connection error") 3)).reconnectAttempts = 0 :=
  ⟨(reconnect_backoff 5000 7).1,
   (reconnect_backoff 5000 7).2.1 (by decide),
   (reconnect_backoff 5000 7).2.2.1,
   (reconnect_backoff 5000 7).2.2.2.1 (by decide),
   ((reconnect_backoff 5000 7).2.2.2.2 (RTConn.mk false (some "Connection error") 3)).1⟩

lemma chListLtb_asymm : ∀ (a b : List Char),
    chListLtb a b = true → chListLtb b a = false := by
  intro a
  induction a with
  | nil =>
      intro b h
      cases b with
      | nil => simp [chListLtb] at h
      | cons d ds => simp [chListLtb]
  | cons c cs ih =>
      intro b h
      cases b with
      | nil => simp [chListLtb] at h
      | cons d ds =>
          rcases Nat.lt_trichotomy c.toNat d.toNat with h1 | h1 | h1
          · have e1 : chLtb c d = true := by simp [chLtb]; omega
            have e2 : chLtb d c = false := by simp [chLtb]; omega
            simp [chListLtb, e1, e2]
          · have e1 : chLtb c d = false := by simp [chLtb]; omega
            have e2 : chLtb d c = false := by simp [chLtb]; omega
            simp only [chListLtb] at h ⊢
            simp only [e1, e2] at h ⊢
            simp only [Bool.false_eq_true, if_false] at h ⊢
            exact ih ds h
          · have e1 : chLtb c d = false := by simp [chLtb]; omega
            have e2 : chLtb d c = true := by simp [chLtb]; omega
            simp [chListLtb, e1, e2] at h

lemma chListLtb_trans : ∀ (a b c : List Char), chListLtb a b = true →
    chListLtb b c = true → chListLtb a c = true := by
  intro a
  induction a with
  | nil =>
      intro b c hab hbc
      cases b with
      | nil => simp [chListLtb] at hab
      | cons y ys =>
          cases c with
          | nil => simp [chListLtb] at hbc
          | cons z zs => simp [chListLtb]
  | cons x xs ih =>
      intro b c hab hbc
      cases b with
      | nil => simp [chListLtb] at hab
      | cons y ys =>
          cases c with
          | nil => simp [chListLtb] at hbc
          | cons z zs =>
              rcases Nat.lt_trichotomy x.toNat y.toNat with h1 | h1 | h1
              · rcases Nat.lt_trichotomy y.toNat z.toNat with h2 | h2 | h2
                · have e : chLtb x z = true := by simp [chLtb]; omega
                  simp [chListLtb, e]
                · have e : chLtb x z = true := by simp [chLtb]; omega
                  simp [chListLtb, e]
                · have e1 : chLtb y z = false := by simp [chLtb]; omega
                  have e2 : chLtb z y = true := by simp [chLtb]; omega
                  simp [chListLtb, e1, e2] at hbc
              · rcases Nat.lt_trichotomy y.toNat z.toNat with h2 | h2 | h2
                · have e : chLtb x z = true := by simp [chLtb]; omega
                  simp [chListLtb, e]
                · have e1 : chLtb x y = false := by simp [chLtb]; omega
                  have e2 : chLtb y x = false := by simp [chLtb]; omega
                  have e3 : chLtb y z = false := by simp [chLtb]; omega
                  have e4 : chLtb z y = false := by simp [chLtb]; omega
                  have e5 : chLtb x z = false := by simp [chLtb]; omega
                  have e6 : chLtb z x = false := by simp [chLtb]; omega
                  simp only [chListLtb, e1, e2, e3, e4, e5, e6] at hab hbc ⊢
                  simp only [Bool.false_eq_true, if_false] at hab hbc ⊢
                  exact ih ys zs hab hbc
                · have e1 : chLtb y z = false := by simp [chLtb]; omega
                  have e2 : chLtb z y = true := by simp [chLtb]; omega
                  simp [chListLtb, e1, e2] at hbc
              · have e1 : chLtb x y = false := by simp [chLtb]; omega
                have e2 : chLtb y x = true := by simp [chLtb]; omega
                simp [chListLtb, e1, e2] at hab

lemma chListLtb_eq : ∀ (a b : List Char),
    chListLtb a b = false → chListLtb b a = false → a = b := by
  intro a
  induction a with
  | nil =>
      intro b h1 _
      cases b with
      | nil => rfl
      | cons d ds => simp [chListLtb] at h1
  | cons c cs ih =>
      intro b h1 h2
      cases b with
      | nil => simp [chListLtb] at h2
      | cons d ds =>
          rcases Nat.lt_trichotomy c.toNat d.toNat with hcd | hcd | hcd
          · have e : chLtb c d = true := by simp [chLtb]; omega
            simp [chListLtb, e] at h1
          · have hc : c = d := Char.ext (UInt32.ext hcd)
            subst hc
            have e : chLtb c c = false := by simp [chLtb]
            simp only [chListLtb, e, Bool.false_eq_true, if_false] at h1 h2
            rw [ih ds h1 h2]
          · have e : chLtb d c = true := by simp [chLtb]; omega
            simp [chListLtb, e] at h2

lemma strLtb_eq_of (a b : String) (h1 : strLtb a b = false)
    (h2 : strLtb b a = false) : a = b :=
  String.ext (chListLtb_eq a.data b.data h1 h2)

instance : IsTotal (String × JVal) fieldLe :=
  ⟨fun a b => by
    unfold fieldLe
    cases hx : strLtb b.1 a.1 with
    | false => exact Or.inl rfl
    | true => exact Or.inr (chListLtb_asymm _ _ hx)⟩

instance : IsTrans (String × JVal) fieldLe :=
  ⟨fun a b c hab hbc => by
    unfold fieldLe at hab hbc ⊢
    cases hx : strLtb c.1 a.1 with
    | false => rfl
    | true =>
        exfalso
        cases hy : strLtb b.1 c.1 with
        | true =>
            have hba : chListLtb b.1.data a.1.data = true :=
              chListLtb_trans _ _ _ hy hx
            rw [show chListLtb b.1.data a.1.data = strLtb b.1 a.1 from rfl, hab] at hba
            cases hba
        | false =>
            have hbc2 : b.1 = c.1 := strLtb_eq_of b.1 c.1 hy hbc
            rw [← hbc2] at hx
            rw [hab] at hx
            cases hx⟩

instance : IsAntisymm (String × JVal) fieldLt :=
  ⟨fun a b hab hba => absurd (strLtb_eq_of a.1 b.1 hba.1 hab.1) hab.2⟩

lemma sortParams_eq_of_perm (p₁ p₂ : ParamsObj) (hp : p₁.Perm p₂)
    (hnd : (p₁.map Prod.fst).Nodup) : sortParams p₁ = sortParams p₂ := by
  have hperm : (sortParams p₁).Perm (sortParams p₂) :=
    ((List.perm_insertionSort fieldLe p₁).trans hp).trans
      (List.perm_insertionSort fieldLe p₂).symm
  have hnd₂ : (p₂.map Prod.fst).Nodup := ((hp.map Prod.fst).nodup_iff).mp hnd
  have hnd₁s : ((sortParams p₁).map Prod.fst).Nodup :=
    (((List.perm_insertionSort fieldLe p₁).map Prod.fst).nodup_iff).mpr hnd
  have hnd₂s : ((sortParams p₂).map Prod.fst).Nodup :=
    (((List.perm_insertionSort fieldLe p₂).map Prod.fst).nodup_iff).mpr hnd₂
  have hs₁ : List.Sorted fieldLt (sortParams p₁) :=
    (List.sorted_insertionSort fieldLe p₁).and (List.pairwise_map.mp hnd₁s)
  have hs₂ : List.Sorted fieldLt (sortParams p₂) :=
    (List.sorted_insertionSort fieldLe p₂).and (List.pairwise_map.mp hnd₂s)
  exact List.eq_of_perm_of_sorted hperm hs₁ hs₂

/-- C7: the cache key builder is deterministic in the parameter object — two
params objects with the same fields in different insertion orders resolve to
the same canonical cache key and hence address the same cache entry.
Repeated calls with the same inputs trivially agree since the embedded
builder is a pure function. -/
theorem buildKey_order_independent (r : Resource) (p₁ p₂ : ParamsObj)
    (hp : p₁.Perm p₂) (hnd : (p₁.map Prod.fst).Nodup) :
    hashKey (resourceListKey r (some p₁)) =
      hashKey (resourceListKey r (some p₂)) ∧
    (∀ s : Store Nat, getQueryData (resourceListKey r (some p₁)) s =
      getQueryData (resourceListKey r (some p₂)) s) := by
  have hsort := sortParams_eq_of_perm p₁ p₂ hp hnd
  have hkey : hashKey (resourceListKey r (some p₁)) =
      hashKey (resourceListKey r (some p₂)) := by
    simp [hashKey, resourceListKey, canonPart, hsort]
  exact ⟨hkey, fun s => by simp [getQueryData, hkey]⟩

/-- C7 witness: `{page: 1, limit: 20}` and `{limit: 20, page: 1}` hash to the
same orders-list key and read the same cache entry. -/
theorem buildKey_order_independent_witness :
    hashKey (resourceListKey Resource.orders (some c7Params1)) =
      hashKey (resourceListKey Resource.orders (some c7Params2)) ∧
    getQueryData (resourceListKey Resource.orders (some c7Params1)) c7Store =
      getQueryData (resourceListKey Resource.orders (some c7Params2)) c7Store :=
  ⟨(buildKey_order_independent Resource.orders c7Params1 c7Params2
      (by decide) (by decide)).1,
   (buildKey_order_independent Resource.orders c7Params1 c7Params2
      (by decide) (by decide)).2 c7Store⟩

end Hamsoya
